import Mathlib

set_option autoImplicit false

namespace Fetchy

/-! Shallow embedding of the fetchy download engine: the range partitioner,
chunk fetcher, merger and orchestrator of `src/downloader.py`, and the
metadata resolver of `src/connection_manager.py`. Definitions first, then
the theorems about them. -/

/-! ## Definitions: range partitioner (src/downloader.py lines 30-40) -/

/-- Chunk size computed by `Downloader._splitter` (src/downloader.py line 33):
`chunk_size = math.ceil(total_size / num_chunks)`, modelled as exact ceiling
division on integers (the float rounding `math.ceil` applies to quotients of
integers above 2^53 is not modelled). -/
def chunkSize (totalSize numChunks : Nat) : Nat :=
  (totalSize + numChunks - 1) / numChunks

/-- Loop body of `Downloader._splitter` (src/downloader.py lines 36-38):
`start = i * chunk_size`, `end = min(start + chunk_size - 1, total_size - 1)`.
Python integers are signed and `end` is `-1` when `total_size = 0`, so the
pair is over `Int`. -/
def splitRange (totalSize numChunks i : Nat) : Int × Int :=
  ((i : Int) * (chunkSize totalSize numChunks : Int),
    min ((i : Int) * (chunkSize totalSize numChunks : Int)
          + (chunkSize totalSize numChunks : Int) - 1)
      ((totalSize : Int) - 1))

/-- `Downloader._splitter` (src/downloader.py lines 30-40; identically
`DownloadWorker._split_ranges`, src/gui.py lines 141-148): the list of
`(start, end)` pairs for `i in range(num_chunks)`. -/
def splitter (totalSize numChunks : Nat) : List (Int × Int) :=
  (List.range numChunks).map (splitRange totalSize numChunks)

/-- Membership of a byte index in an inclusive `(start, end)` range. -/
def memRange (x : Int) (r : Int × Int) : Prop :=
  r.1 ≤ x ∧ x ≤ r.2

instance (x : Int) (r : Int × Int) : Decidable (memRange x r) := by
  unfold memRange; infer_instance

/-! ## Definitions: progress counters (src/downloader.py lines 62-71, 243-246)
`downloaded_bytes[part_num] += len(chunk)` is one locked write; the lock
serialises writes and reads, so a session is a sequence of such writes. -/

/-- One `self.downloaded_bytes[part_num] += len(chunk)` under `self.lock`
(src/downloader.py lines 70-71). -/
def recordWrite (counters : List Nat) (part len : Nat) : List Nat :=
  counters.set part (counters.getD part 0 + len)

/-- `Downloader.get_progress` (src/downloader.py lines 243-246): the locked
sum of the per-chunk counters. -/
def getProgress (counters : List Nat) : Nat :=
  counters.sum

/-- The counter array after a sequence of locked writes, each a
`(part_num, len(chunk))` pair, applied in lock-acquisition order. -/
def applyWrites (counters : List Nat) (ws : List (Nat × Nat)) : List Nat :=
  ws.foldl (fun cs w => recordWrite cs w.1 w.2) counters

/-! ## Definitions: download orchestration (src/downloader.py)

The session is modelled with the control flags held fixed for its duration:
no `pause`/`resume`/`cancel` call lands mid-run (the regime of every claim
below, which pre-sets the flags before `download()` is entered). File and
network I/O on the local side is taken fault-free, so the `except` branch of
`_merger` is unreachable; per-request server behaviour (status, streamed
chunks, transport errors) stays an explicit parameter. -/

/-- The dict returned by `Connector.connect` as consumed by
`Downloader.download`: `content["size"]` is `None` exactly when no
`Content-Length` was found (neither on the HEAD probe nor on the GET
fallback), else its numeric value; `content["supports_resume"]` is the
`Accept-Ranges: bytes` flag. -/
structure Metadata where
  size : Option Nat
  filename : List Char
  supportsResume : Bool

/-- A Python exception class, as far as the model needs to tell them apart. -/
inductive PyError
  | nameError
  | connectionError
  | typeError
  deriving DecidableEq

/-- What a call to `Downloader.download` does for the caller: `return True`,
`return False`, Python's implicit `return None`, or an uncaught exception. -/
inductive Outcome
  | retTrue
  | retFalse
  | retNone
  | raised (e : PyError)
  deriving DecidableEq

/-- The server side of one `requests.get(url, headers={"Range": ...})`:
either a transport-level exception or a reply with a status code and the
list of streamed body chunks that `iter_content` would yield. -/
inductive ServerReply
  | reply (status : Nat) (chunks : List (List Nat))
  | netError

/-- Mutable `Downloader` attributes set in `__init__`
(src/downloader.py lines 11-17). -/
structure DState where
  isPaused : Bool
  isCancelled : Bool
  downloadedBytes : List Nat

/-- `Downloader.__init__`: `is_paused = False`, `is_cancelled = False`,
`downloaded_bytes = []`. -/
def initState : DState :=
  { isPaused := false, isCancelled := false, downloadedBytes := [] }

/-- `Downloader.pause` (src/downloader.py lines 228-231). -/
def pause (s : DState) : DState :=
  { s with isPaused := true }

/-- `Downloader.resume` (src/downloader.py lines 233-236). -/
def resume (s : DState) : DState :=
  { s with isPaused := false }

/-- `Downloader.cancel` (src/downloader.py lines 238-241). -/
def cancel (s : DState) : DState :=
  { s with isCancelled := true }

/-- What one run of `Downloader._threaded_download` did. -/
structure FetchResult where
  /-- whether `requests.get` was called at all -/
  requestIssued : Bool
  /-- the `Range: bytes=start-end` header sent with that request -/
  rangeHeader : Option (Int × Int)
  /-- content of `part_<i>.tmp` afterwards; `none` if the file was never
  created (bad status or transport error before `open`) -/
  part : Option (List Nat)
  /-- total added to `downloaded_bytes[part_num]` -/
  counted : Nat

/-- The `for chunk in r.iter_content(...)` loop body (src/downloader.py
lines 56-71) under a fixed `is_cancelled` flag: check cancel first, then
write the chunk if non-empty and count its length. Returns the bytes
written to the part file and the total counted. -/
def writeChunks (cancelled : Bool) : List (List Nat) → List Nat × Nat
  | [] => ([], 0)
  | c :: rest =>
    if cancelled then ([], 0)
    else
      let done := writeChunks cancelled rest
      if c.isEmpty then done else (c ++ done.1, done.2 + c.length)

/-- `Downloader._threaded_download` (src/downloader.py lines 42-82) for one
range under a fixed `is_cancelled` flag (and `is_paused = false`, since the
busy-wait pause loop never exits under fixed flags): it always builds
`headers = {"Range": f"bytes={start}-{end}"}` and always calls
`requests.get`; on status 200 or 206 it opens the part file (created even
when cancellation stops the loop at its first check) and streams chunks in;
any other status, or a transport error, leaves no part file; every failure
is swallowed (printed) with no error return. -/
def threadedDownload (rep : ServerReply) (cancelled : Bool)
    (start fin : Int) : FetchResult :=
  { requestIssued := true
    rangeHeader := some (start, fin)
    part :=
      match rep with
      | .netError => none
      | .reply status chunks =>
        if status = 200 ∨ status = 206 then
          some (writeChunks cancelled chunks).1
        else none
    counted :=
      match rep with
      | .netError => 0
      | .reply status chunks =>
        if status = 200 ∨ status = 206 then
          (writeChunks cancelled chunks).2
        else 0 }

/-- The `for i in range(num_threads)` loop of `Downloader._merger`
(src/downloader.py lines 121-132): a present part is appended to the output
and then removed; a missing part only prints a warning. Returns the merged
output bytes and the part files left behind. -/
def mergeLoop : List (Option (List Nat)) → List Nat × List (Option (List Nat))
  | [] => ([], [])
  | some content :: rest =>
    let done := mergeLoop rest
    (content ++ done.1, none :: done.2)
  | none :: rest =>
    let done := mergeLoop rest
    (done.1, none :: done.2)

/-- `Downloader._merger` (src/downloader.py lines 116-139): with local file
I/O fault-free the `except` branch is unreachable and the function returns
`True`. Result: `(return value, output file content, remaining parts)`. -/
def merger (parts : List (Option (List Nat))) :
    Bool × List Nat × List (Option (List Nat)) :=
  (true, (mergeLoop parts).1, (mergeLoop parts).2)

/-- `Downloader._cleanup_parts` (src/downloader.py lines 141-149):
best-effort removal of every part file. -/
def cleanupParts (parts : List (Option (List Nat))) :
    List (Option (List Nat)) :=
  parts.map (fun _ => none)

/-- Thread-count adjustment in `Downloader.download` (src/downloader.py
lines 164-168 and 192-196): `total_size == 0` forces `num_threads = 1`;
`not content.get("supports_resume") and total_size > 0` forces
`num_threads = 1`; otherwise the requested count stands. -/
def effectiveThreads (size : Nat) (supportsResume : Bool)
    (requested : Nat) : Nat :=
  let n1 := if size = 0 then 1 else requested
  if ¬supportsResume ∧ 0 < size then 1 else n1

/-- Everything observable from one `Downloader.download` call. -/
structure SessionResult where
  outcome : Outcome
  state : DState
  /-- part files on disk when the call ends -/
  parts : List (Option (List Nat))
  /-- final output file content, if the merge step ran -/
  output : Option (List Nat)
  /-- the `Range` header of each request the fetchers issued, in part order -/
  requests : List (Option (Int × Int))

/-- `Downloader.download` (src/downloader.py lines 151-226) together with
`_initializer` (lines 19-28) and `_parallel_downloader` (lines 84-114),
under fixed control flags.

* `conn = none` models `Connector.connect` returning `None`: `_initializer`
  raises `ConnectionError`, the `except` handler catches it and then
  evaluates `self._cleanup_parts(num_threads, output_dir)` — but the local
  `output_dir` is unbound on this path, so the handler itself raises
  `NameError`, which escapes `download()`.
* `size = none` models `int(content.get("size", 0))` on `content["size"] =
  None` (the key is always present): `int(None)` raises `TypeError`, and
  the handler again dies on the unbound `output_dir` with `NameError`.
* Otherwise ranges are split, one fetcher runs per range,
  `_parallel_downloader` returns `not is_cancelled`, and `download` merges
  (returning `True`, or falling off the `if` with `None` if the merge
  reported failure) or, when cancelled, cleans up and returns `False`. -/
def download (conn : Option Metadata) (requested : Nat)
    (server : Int → Int → ServerReply) (st : DState) : SessionResult :=
  match conn with
  | none =>
    { outcome := .raised .nameError, state := st, parts := [],
      output := none, requests := [] }
  | some m =>
    match m.size with
    | none =>
      { outcome := .raised .nameError, state := st, parts := [],
        output := none, requests := [] }
    | some totalSize =>
      let n := effectiveThreads totalSize m.supportsResume requested
      let results := (splitter totalSize n).map
        (fun r => threadedDownload (server r.1 r.2) st.isCancelled r.1 r.2)
      let st2 := { st with downloadedBytes := results.map (·.counted) }
      let parts := results.map (·.part)
      let reqs := results.map (·.rangeHeader)
      let success := !st.isCancelled
      if success ∧ ¬st.isCancelled then
        let m := merger parts
        if m.1 then
          { outcome := .retTrue, state := st2, parts := m.2.2,
            output := some m.2.1, requests := reqs }
        else
          { outcome := .retNone, state := st2, parts := m.2.2,
            output := some m.2.1, requests := reqs }
      else
        { outcome := .retFalse, state := st2, parts := cleanupParts parts,
          output := none, requests := reqs }

/-! ## Definitions: metadata resolver (src/connection_manager.py)
Header and URL text is modelled as `List Char`; bytes as `Nat`. -/

/-- The apostrophe character. -/
def apos : Char := Char.ofNat 39

/-- The double-quote character. -/
def dquo : Char := Char.ofNat 34

/-- Value of one hexadecimal digit, if `c` is one. -/
def hexDigit (c : Char) : Option Nat :=
  if '0' ≤ c ∧ c ≤ '9' then some (c.toNat - '0'.toNat)
  else if 'a' ≤ c ∧ c ≤ 'f' then some (c.toNat - 'a'.toNat + 10)
  else if 'A' ≤ c ∧ c ≤ 'F' then some (c.toNat - 'A'.toNat + 10)
  else none

/-- UTF-8 encoding of one code point. -/
def utf8Encode (c : Char) : List Nat :=
  let n := c.toNat
  if n < 128 then [n]
  else if n < 2048 then [192 + n / 64, 128 + n % 64]
  else if n < 65536 then [224 + n / 4096, 128 + n / 64 % 64, 128 + n % 64]
  else [240 + n / 262144, 128 + n / 4096 % 64, 128 + n / 64 % 64, 128 + n % 64]

/-- UTF-8 decoding of a byte string (well-formed input; the malformed-input
replacement behaviour of Python's `errors="replace"` is not needed by any
input below and is modelled as truncation). -/
def utf8Decode : List Nat → List Char
  | [] => []
  | b :: rest =>
    if b < 128 then Char.ofNat b :: utf8Decode rest
    else if b < 224 then
      match rest with
      | b2 :: rest2 => Char.ofNat (b % 32 * 64 + b2 % 64) :: utf8Decode rest2
      | [] => []
    else if b < 240 then
      match rest with
      | b2 :: b3 :: rest3 =>
        Char.ofNat (b % 16 * 4096 + b2 % 64 * 64 + b3 % 64) :: utf8Decode rest3
      | _ => []
    else
      match rest with
      | b2 :: b3 :: b4 :: rest4 =>
        Char.ofNat (b % 8 * 262144 + b2 % 64 * 4096 + b3 % 64 * 64 + b4 % 64)
          :: utf8Decode rest4
      | _ => []

/-- The percent-decoding byte phase of `urllib.parse.unquote`: `%XX` with
two hex digits becomes the byte `XX`; anything else (including a `%` not
followed by two hex digits, kept literal) contributes its UTF-8 bytes. -/
def unquoteBytes : List Char → List Nat
  | [] => []
  | '%' :: h1 :: h2 :: rest2 =>
    match hexDigit h1, hexDigit h2 with
    | some a, some b => (16 * a + b) :: unquoteBytes rest2
    | _, _ => utf8Encode '%' ++ unquoteBytes (h1 :: h2 :: rest2)
  | c :: rest => utf8Encode c ++ unquoteBytes rest

/-- `urllib.parse.unquote`: percent-decode to bytes, then read the bytes
back as UTF-8 text. (A non-percent character round-trips through its own
UTF-8 encoding unchanged.) -/
def unquote (s : List Char) : List Char :=
  utf8Decode (unquoteBytes s)

/-- Split a string at the first occurrence of `q`: `some (before, after)`
with `q` removed, or `none` when `q` does not occur. -/
def splitAtChar (q : Char) : List Char → Option (List Char × List Char)
  | [] => none
  | c :: rest =>
    if c = q then some ([], rest)
    else
      match splitAtChar q rest with
      | some p => some (c :: p.1, p.2)
      | none => none

/-- The regex `filename\*=([^']+)'([^']*)'(.+)` of
`Connector._parse_content_disposition` (src/connection_manager.py lines
50-56) matched at the start of `s`. `[^']` cannot cross an apostrophe, so
the regex is deterministic here: group 1 is the non-empty text before the
first apostrophe (the charset), group 2 the text between the first two
apostrophes (the language), group 3 the non-empty remainder; the code
returns `unquote(group 3)` and discards groups 1 and 2. -/
def matchFilenameStar (s : List Char) : Option (List Char) :=
  if ("filename*=".toList).isPrefixOf s then
    match splitAtChar apos (s.drop 10) with
    | some g1 =>
      if g1.1 = [] then none
      else
        match splitAtChar apos g1.2 with
        | some g2 => if g2.2 = [] then none else some (unquote g2.2)
        | none => none
    | none => none
  else none

/-- `re.search` of the `filename*=` pattern: the leftmost position at which
it matches. -/
def searchFilenameStar : List Char → Option (List Char)
  | [] => none
  | c :: rest =>
    match matchFilenameStar (c :: rest) with
    | some r => some r
    | none => searchFilenameStar rest

/-- The regex `filename="?([^"]+)"?` of `Connector._parse_content_disposition`
(src/connection_manager.py line 59) matched at the start of `s`: an optional
opening double quote, then the maximal non-empty run of non-quote characters
(an unquoted value therefore runs to the next quote or to the end of the
header, semicolons included); the trailing optional quote is outside the
group. -/
def matchPlainFilename (s : List Char) : Option (List Char) :=
  if ("filename=".toList).isPrefixOf s then
    let rest := s.drop 9
    let rest2 := if rest.head? = some dquo then rest.drop 1 else rest
    let g1 := rest2.takeWhile (fun c => !(c == dquo))
    if g1 = [] then none else some g1
  else none

/-- `re.search` of the plain `filename=` pattern. -/
def searchPlainFilename : List Char → Option (List Char)
  | [] => none
  | c :: rest =>
    match matchPlainFilename (c :: rest) with
    | some r => some r
    | none => searchPlainFilename rest

/-- `Connector._parse_content_disposition` (src/connection_manager.py lines
41-66): a falsy (empty) header gives `None`; otherwise the RFC 5987
`filename*=` pattern is tried first, then the plain `filename=` pattern,
else `None`. -/
def parseContentDisposition (s : List Char) : Option (List Char) :=
  if s = [] then none
  else
    match searchFilenameStar s with
    | some f => some f
    | none => searchPlainFilename s

/-- Scan for the `://` separating scheme from netloc; `none` when absent. -/
def dropSchemeSep : List Char → Option (List Char)
  | [] => none
  | ':' :: '/' :: '/' :: rest => some rest
  | _ :: rest => dropSchemeSep rest

/-- `urllib.parse.urlparse(url).path` for the URL shapes the resolver sees:
the text after the scheme separator and the netloc (which runs to the first
`/`), truncated at the first `?` (query) or `#` (fragment); a URL without
`://` is one big path, likewise truncated. -/
def urlPath (url : List Char) : List Char :=
  let afterNetloc :=
    match dropSchemeSep url with
    | some rest => rest.dropWhile (fun c => !(c == '/'))
    | none => url
  afterNetloc.takeWhile (fun c => !(c == '?') && !(c == '#'))

/-- `path.split("/")[-1]`: the text after the last `/` (the whole string
when there is none). -/
def lastSegment (s : List Char) : List Char :=
  (s.reverse.takeWhile (fun c => !(c == '/'))).reverse

/-- `Connector._url_parser` (src/connection_manager.py lines 68-89): the
percent-decoded last segment of the URL path; empty or `/`-terminated ⇒ the
literal default name `download_file`; any text from the first `?` on is
then dropped. -/
def urlParserFn (url : List Char) : List Char :=
  let filename := unquote (lastSegment (urlPath url))
  let f2 :=
    if filename = [] ∨ filename.getLast? = some '/' then
      "download_file".toList
    else filename
  if f2.contains '?' then f2.takeWhile (fun c => !(c == '?')) else f2

/-- Filename resolution inside `Connector.connect` (src/connection_manager.py
lines 111-121): the Content-Disposition parse wins when it yields a truthy
(non-empty) value; otherwise `_url_parser` supplies the fallback. -/
def resolveFilename (disposition : Option (List Char)) (url : List Char) :
    List Char :=
  let fromDisp :=
    match disposition with
    | some d => parseContentDisposition d
    | none => none
  match fromDisp with
  | some f => if f = [] then urlParserFn url else f
  | none => urlParserFn url

/-- The response headers `Connector.connect` reads. -/
structure ProbeHeaders where
  contentType : Option (List Char)
  contentLength : Option (List Char)
  contentDisposition : Option (List Char)
  acceptRanges : Option (List Char)

/-- Outcome of the `requests.head` probe in `Connector.connect`: a reply
with a status code and headers, or one of the three caught exception
shapes (`Timeout`, `RequestException`, anything else). -/
inductive ProbeResult
  | reply (status : Nat) (headers : ProbeHeaders)
  | timeout
  | requestError
  | otherError

/-- `Connector._status_check` (src/connection_manager.py lines 16-25): a
`requests.Response` is truthy iff its status is below 400, and the truthy
branch then compares to 200, so the net result is `status == 200`. An
exception before the check means no reply at all. -/
def statusCheck : ProbeResult → Bool
  | .reply status _ => status == 200
  | _ => false

/-- ASCII lowercasing, for `str.lower` on a header value. -/
def lowerChar (c : Char) : Char :=
  if 'A' ≤ c ∧ c ≤ 'Z' then Char.ofNat (c.toNat + 32) else c

/-- `Connector._accept_range_checker` (src/connection_manager.py lines
27-39): true exactly when the `Accept-Ranges` value is present and
lowercases to `bytes`; absence keeps the `False` default. -/
def acceptRangeChecker (v : Option (List Char)) : Bool :=
  match v with
  | some s => s.map lowerChar == "bytes".toList
  | none => false

/-- Outcome of the streamed GET fallback run when Content-Length is missing
(src/connection_manager.py lines 128-136): `ok len` carries that response's
Content-Length header; `err` is any exception, swallowed by the bare
`except: pass`. -/
inductive GetFallback
  | ok (len : Option (List Char))
  | err

/-- The dict `Connector.connect` returns on success. -/
structure ConnMeta where
  ctype : Option (List Char)
  size : Option (List Char)
  decomposition : Option (List Char)
  range : Option (List Char)
  filename : List Char
  supportsResume : Bool

/-- `Connector.connect` (src/connection_manager.py lines 91-159): every
exception shape is caught and yields `None`; a reply failing the status
check yields `None`; only a 200 reply assembles metadata, running the GET
fallback when Content-Length is missing or empty. The function is total:
no exception crosses this boundary. -/
def connect (url : List Char) (probe : ProbeResult) (fb : GetFallback) :
    Option ConnMeta :=
  match probe with
  | .timeout => none
  | .requestError => none
  | .otherError => none
  | .reply status hdrs =>
    if statusCheck (.reply status hdrs) then
      let size0 := hdrs.contentLength
      let size :=
        if size0 = none ∨ size0 = some [] then
          match fb with
          | .ok l => l
          | .err => size0
        else size0
      some { ctype := hdrs.contentType
             size := size
             decomposition := hdrs.contentDisposition
             range := hdrs.acceptRanges
             filename := resolveFilename hdrs.contentDisposition url
             supportsResume := acceptRangeChecker hdrs.acceptRanges }
    else none

/-- A server that drops the connection for the range starting at byte 0 and
serves any other range with status 206 and a single one-byte chunk. -/
def missingPartServer : Int → Int → ServerReply := fun s _ =>
  if s = 0 then ServerReply.netError else ServerReply.reply 206 [[42]]

/-- A server that answers every range request with status 206 and a single
one-byte chunk. -/
def okServer : Int → Int → ServerReply := fun _ _ =>
  ServerReply.reply 206 [[1]]

/-! ## Theorems -/

theorem length_splitter (ts n : Nat) : (splitter ts n).length = n := by
  simp [splitter]

theorem splitter_getD (ts n i : Nat) (h : i < n) :
    (splitter ts n).getD i (0, 0) = splitRange ts n i := by
  simp [splitter, List.getD_eq_getElem?_getD, List.getElem?_map,
    List.getElem?_range, h]

theorem total_le_mul_chunkSize (ts n : Nat) (hn : 1 ≤ n) :
    ts ≤ n * chunkSize ts n := by
  have h := Nat.div_add_mod (ts + n - 1) n
  have h2 : (ts + n - 1) % n < n := Nat.mod_lt _ hn
  unfold chunkSize
  obtain ⟨p, hp⟩ : ∃ p, n * ((ts + n - 1) / n) = p := ⟨_, rfl⟩
  rw [hp] at h ⊢
  omega

theorem chunkSize_pos (ts n : Nat) (hts : 1 ≤ ts) (hn : 1 ≤ n) :
    1 ≤ chunkSize ts n := by
  unfold chunkSize
  rw [Nat.one_le_div_iff hn]
  omega

/-- C1: for every `total_size ≥ 0` and `n ≥ 1`, `_splitter` returns exactly
`n` ranges; range `i` is `[i*ceil(ts/n), min((i+1)*ceil(ts/n)-1, ts-1)]`;
the starts are ordered; the ranges are pairwise disjoint; and the union of
the non-empty ranges is exactly `[0, total_size)` — no overlap, no gap,
including when `total_size < n`. -/
theorem splitter_partition (ts n : Nat) (hn : 1 ≤ n) :
    (splitter ts n).length = n ∧
    (∀ i, i < n → (splitter ts n).getD i (0, 0) =
      ((i : Int) * (chunkSize ts n : Int),
        min (((i : Int) + 1) * (chunkSize ts n : Int) - 1) ((ts : Int) - 1))) ∧
    (∀ i j, i ≤ j → j < n →
      ((splitter ts n).getD i (0, 0)).1 ≤ ((splitter ts n).getD j (0, 0)).1) ∧
    (∀ x : Int, ∀ i j, i < j → j < n →
      ¬(memRange x ((splitter ts n).getD i (0, 0)) ∧
        memRange x ((splitter ts n).getD j (0, 0)))) ∧
    (∀ x : Int, (0 ≤ x ∧ x < (ts : Int)) ↔
      ∃ i, i < n ∧ memRange x ((splitter ts n).getD i (0, 0))) := by
  have hmul := total_le_mul_chunkSize ts n hn
  refine ⟨length_splitter ts n, ?_, ?_, ?_, ?_⟩
  · intro i hi
    rw [splitter_getD ts n i hi]
    unfold splitRange
    rw [show ((i : Int) * (chunkSize ts n : Int) + (chunkSize ts n : Int) - 1)
        = (((i : Int) + 1) * (chunkSize ts n : Int) - 1) by ring]
  · intro i j hij hj
    rw [splitter_getD ts n i (lt_of_le_of_lt hij hj), splitter_getD ts n j hj]
    unfold splitRange
    exact mul_le_mul_of_nonneg_right (by exact_mod_cast hij)
      (Int.ofNat_nonneg _)
  · intro x i j hij hj hmem
    obtain ⟨⟨_, hi2⟩, ⟨hj1, _⟩⟩ := hmem
    rw [splitter_getD ts n i (lt_trans hij hj)] at hi2
    rw [splitter_getD ts n j hj] at hj1
    unfold splitRange at hi2 hj1
    simp only at hi2 hj1
    have hi2' : x ≤ (i : Int) * (chunkSize ts n : Int)
        + (chunkSize ts n : Int) - 1 :=
      le_trans hi2 (min_le_left _ _)
    have hstep : ((i : Int) + 1) * (chunkSize ts n : Int)
        ≤ (j : Int) * (chunkSize ts n : Int) := by
      refine mul_le_mul_of_nonneg_right ?_ (Int.ofNat_nonneg _)
      exact_mod_cast hij
    nlinarith [hstep, hi2', hj1]
  · intro x
    constructor
    · rintro ⟨hx0, hxts⟩
      have hts1 : 1 ≤ ts := by omega
      have hcs1 : 1 ≤ chunkSize ts n := chunkSize_pos ts n hts1 hn
      have hxy : ((x.toNat : Nat) : Int) = x := Int.toNat_of_nonneg hx0
      have hyts : x.toNat < ts := by omega
      have hqn : x.toNat / chunkSize ts n < n := by
        rw [Nat.div_lt_iff_lt_mul (by omega)]
        calc x.toNat < ts := hyts
          _ ≤ n * chunkSize ts n := hmul
          _ = n * chunkSize ts n := rfl
      refine ⟨x.toNat / chunkSize ts n, hqn, ?_⟩
      rw [splitter_getD ts n _ hqn]
      unfold splitRange memRange
      constructor
      · have h1 : x.toNat / chunkSize ts n * chunkSize ts n ≤ x.toNat :=
          Nat.div_mul_le_self _ _
        have h1' := Int.ofNat_le.mpr h1
        rw [Nat.cast_mul] at h1'
        simp only
        linarith [hxy ▸ h1']
      · simp only [le_min_iff]
        constructor
        · have hdm := Nat.div_add_mod x.toNat (chunkSize ts n)
          have hm : x.toNat % chunkSize ts n < chunkSize ts n :=
            Nat.mod_lt _ (by omega)
          obtain ⟨p, hp⟩ : ∃ p, x.toNat / chunkSize ts n * chunkSize ts n = p :=
            ⟨_, rfl⟩
          rw [Nat.mul_comm] at hdm
          rw [hp] at hdm
          have hcast : ((x.toNat / chunkSize ts n : Nat) : Int)
              * (chunkSize ts n : Int) = (p : Int) := by
            rw [← hp, Nat.cast_mul]
          rw [hcast]
          omega
        · omega
    · rintro ⟨i, hin, hmem⟩
      rw [splitter_getD ts n i hin] at hmem
      unfold splitRange memRange at hmem
      obtain ⟨h1, h2⟩ := hmem
      simp only at h1 h2
      have h3 : x ≤ (ts : Int) - 1 := le_trans h2 (min_le_right _ _)
      have h4 : (0 : Int) ≤ (i : Int) * (chunkSize ts n : Int) := by positivity
      constructor
      · linarith
      · omega

theorem splitter_partition_witness :
    (splitter 10 4).length = 4 ∧
    ((0 ≤ (7 : Int) ∧ (7 : Int) < (10 : Nat)) ↔
      ∃ i, i < 4 ∧ memRange 7 ((splitter 10 4).getD i (0, 0))) :=
  ⟨(splitter_partition 10 4 (by decide)).1,
    (splitter_partition 10 4 (by decide)).2.2.2.2 7⟩

theorem getD_recordWrite_le (counters : List Nat) (part len i : Nat) :
    counters.getD i 0 ≤ (recordWrite counters part len).getD i 0 := by
  unfold recordWrite
  induction counters generalizing part i with
  | nil => simp
  | cons c tail ih =>
    cases part with
    | zero =>
      cases i with
      | zero => simp [List.set]
      | succ k => simp [List.set]
    | succ p =>
      cases i with
      | zero => simp [List.set]
      | succ k => simpa [List.set] using ih p k

theorem sum_recordWrite_le (counters : List Nat) (part len : Nat) :
    counters.sum ≤ (recordWrite counters part len).sum := by
  unfold recordWrite
  induction counters generalizing part with
  | nil => simp
  | cons c tail ih =>
    cases part with
    | zero => simp [List.set]
    | succ p =>
      have := ih p
      simp only [List.set, List.sum_cons, List.getD_cons_succ]
      omega

/-- C9: every locked write adds a non-negative length to one per-chunk
counter, so each counter is non-decreasing and the value of `get_progress`
(the locked sum of the counters) never decreases across any sequence of
further writes within a session. -/
theorem progress_monotone (counters : List Nat) (ws : List (Nat × Nat)) :
    (∀ i, counters.getD i 0 ≤ (applyWrites counters ws).getD i 0) ∧
    getProgress counters ≤ getProgress (applyWrites counters ws) := by
  unfold applyWrites getProgress
  induction ws generalizing counters with
  | nil => exact ⟨fun i => le_refl _, le_refl _⟩
  | cons w rest ih =>
    have step1 := fun i => getD_recordWrite_le counters w.1 w.2 i
    have step2 := sum_recordWrite_le counters w.1 w.2
    obtain ⟨ih1, ih2⟩ := ih (recordWrite counters w.1 w.2)
    refine ⟨fun i => le_trans (step1 i) (ih1 i), le_trans step2 ih2⟩

/-- C2 (code-bug evaluation): when the resolver returns metadata whose
`size` field is `None` (no `Content-Length` anywhere), `download()` does not
downgrade to one thread and proceed — `int(None)` raises `TypeError` and the
`except` handler dies on the unbound local `output_dir`, so the call raises
`NameError` instead of running a session. -/
theorem download_unknown_size_raises :
    (download (some { size := none, filename := [], supportsResume := true })
      4 okServer initState).outcome = Outcome.raised PyError.nameError := rfl

/-- C3 (code-bug evaluation): when `connect()` returns `None`, `download()`
does not return `False`: `_initializer` raises `ConnectionError`, the
`except` handler catches it but immediately evaluates the unbound local
`output_dir`, and the resulting `NameError` escapes to the caller. -/
theorem download_resolver_failure_raises :
    (download none 4 okServer initState).outcome
      = Outcome.raised PyError.nameError := rfl

theorem mergeLoop_spec (parts : List (Option (List Nat))) :
    mergeLoop parts = ((parts.filterMap id).flatten, parts.map fun _ => none) := by
  induction parts with
  | nil => rfl
  | cons p rest ih =>
    cases p with
    | none => simp [mergeLoop, ih]
    | some content => simp [mergeLoop, ih]

/-- C4 counterexample: in a non-cancelled two-part session whose first
fetcher dies on a transport error, part 0 is missing at merge time, yet
`_merger` still returns `True` (it only prints a warning) and
`download()` returns `True` — the session outcome is success, not
failure. -/
theorem merger_missing_part_counterexample :
    (threadedDownload (missingPartServer 0 0) false 0 0).part = none ∧
    (merger [none, some [42]]).1 = true ∧
    (download (some { size := some 2, filename := [], supportsResume := true })
      2 missingPartServer initState).outcome = Outcome.retTrue := by
  decide

/-- C4 amended: the merge reports success whether or not all parts are
present — a missing part is skipped with a warning; the output is the
concatenation of the parts that are present, in ascending index order, each
deleted right after consumption; and a non-cancelled session reports
overall success regardless of missing parts. -/
theorem merger_skips_missing_parts (parts : List (Option (List Nat)))
    (m : Metadata) (sz requested : Nat) (server : Int → Int → ServerReply)
    (st : DState) (hsz : m.size = some sz) (hc : st.isCancelled = false) :
    (merger parts).1 = true ∧
    (merger parts).2.1 = (parts.filterMap id).flatten ∧
    (merger parts).2.2 = parts.map (fun _ => none) ∧
    (download (some m) requested server st).outcome = Outcome.retTrue := by
  refine ⟨rfl, ?_, ?_, ?_⟩
  · rw [merger, mergeLoop_spec]
  · rw [merger, mergeLoop_spec]
  · obtain ⟨ms, mf, mr⟩ := m
    simp only [Metadata.size] at hsz
    subst hsz
    simp [download, hc, merger]

theorem merger_skips_missing_parts_witness :
    (download (some { size := some 2, filename := [], supportsResume := true })
      2 okServer initState).outcome = Outcome.retTrue :=
  (merger_skips_missing_parts ([])
    ({ size := some 2, filename := [], supportsResume := true })
    2 2 okServer initState rfl rfl).2.2.2

/-- C5 counterexample: `_splitter 3 5` produces the empty range `(3, 2)`
(start > end), and `_threaded_download` on that range still issues the HTTP
request, with header `Range: bytes=3-2` — no skip-and-mark-complete path
exists. -/
theorem empty_range_request_counterexample :
    (splitter 3 5).getD 3 (0, 0) = (3, 2) ∧
    (3 : Int) > 2 ∧
    (threadedDownload (ServerReply.reply 416 []) false 3 2).requestIssued
      = true ∧
    (threadedDownload (ServerReply.reply 416 []) false 3 2).rangeHeader
      = some (3, 2) := by
  decide

/-- C5 amended: the chunk fetcher issues the ranged HTTP request for every
range, empty ranges included; there is no empty-range skip. The chunk
counter is left at zero (and no part file is created) only because a status
other than 200/206 — the usual server answer to an unsatisfiable range — is
not written. -/
theorem fetcher_always_requests (rep : ServerReply) (cancelled : Bool)
    (start fin : Int) (status : Nat) (chunks : List (List Nat))
    (hrep : rep = ServerReply.reply status chunks)
    (h200 : status ≠ 200) (h206 : status ≠ 206) :
    (threadedDownload rep cancelled start fin).requestIssued = true ∧
    (threadedDownload rep cancelled start fin).rangeHeader
      = some (start, fin) ∧
    (threadedDownload rep cancelled start fin).counted = 0 ∧
    (threadedDownload rep cancelled start fin).part = none := by
  subst hrep
  simp [threadedDownload, h200, h206]

theorem fetcher_always_requests_witness :
    (threadedDownload (ServerReply.reply 416 []) false 5 4).requestIssued
      = true ∧
    (threadedDownload (ServerReply.reply 416 []) false 5 4).rangeHeader
      = some (5, 4) ∧
    (threadedDownload (ServerReply.reply 416 []) false 5 4).counted = 0 ∧
    (threadedDownload (ServerReply.reply 416 []) false 5 4).part = none :=
  fetcher_always_requests (ServerReply.reply 416 []) false 5 4 416 []
    rfl (by decide) (by decide)

/-- C6 counterexample: a known 100-byte resource without range support and
requested thread count 8 is downgraded to exactly one fetcher — but that
fetcher's request carries the header `Range: bytes=0-99`; it is not an
unranged full-body retrieval. -/
theorem downgrade_range_header_counterexample :
    (download (some { size := some 100, filename := [], supportsResume := false })
      8 okServer initState).requests = [some (0, 99)] := by
  decide

/-- C6 amended: whenever the session is downgraded to a single fetcher
(`supports_resume` false, or size 0), exactly one fetcher is spawned, and
its request always carries a `Range` header, `bytes=0-(size-1)` (which is
`bytes=0--1` when the size is 0); no unranged request path exists in
src/downloader.py, and an unknown (`None`) size raises `NameError` instead
of downgrading. -/
theorem downgraded_single_ranged_fetcher (m : Metadata) (sz requested : Nat)
    (server : Int → Int → ServerReply) (st : DState)
    (hsz : m.size = some sz) (hdown : m.supportsResume = false ∨ sz = 0) :
    (download (some m) requested server st).requests
      = [some (0, (sz : Int) - 1)] := by
  obtain ⟨ms, mf, mr⟩ := m
  simp only [Metadata.size] at hsz
  subst hsz
  simp only [Metadata.supportsResume] at hdown
  have hn : effectiveThreads sz mr requested = 1 := by
    unfold effectiveThreads
    rcases hdown with h | h
    · subst h
      by_cases h0 : sz = 0 <;> simp [h0]
    · subst h
      simp
  have hcs : chunkSize sz 1 = sz := by
    unfold chunkSize
    omega
  simp only [download, hn]
  simp only [splitter, splitRange, threadedDownload, hcs, List.range_succ,
    List.range_zero, List.nil_append, List.map_cons, List.map_nil,
    Nat.cast_zero, zero_mul, zero_add, min_self]
  split_ifs <;> rfl

theorem downgraded_single_ranged_fetcher_witness :
    (download (some { size := some 10, filename := [], supportsResume := false })
      4 okServer initState).requests = [some (0, ((10 : Nat) : Int) - 1)] :=
  downgraded_single_ranged_fetcher
    ({ size := some 10, filename := [], supportsResume := false })
    10 4 okServer initState rfl (Or.inl rfl)

/-- C10 counterexample: after `cancel()`, a subsequent `download()` call on
the same object does not always return failure: when the resolver fails, it
raises `NameError` (the handler's unbound `output_dir`) instead of
returning `False`. -/
theorem cancelled_download_raises_counterexample :
    (cancel initState).isCancelled = true ∧
    (download none 4 okServer (cancel initState)).outcome
      = Outcome.raised PyError.nameError := by
  decide

theorem counted_of_cancelled (rep : ServerReply) (a b : Int) :
    (threadedDownload rep true a b).counted = 0 := by
  cases rep with
  | netError => rfl
  | reply status chunks =>
    cases chunks with
    | nil => simp [threadedDownload, writeChunks]
    | cons c rest => simp [threadedDownload, writeChunks]

theorem cleanupParts_all_none (l : List (Option (List Nat))) :
    (cleanupParts l).all (fun p => p = none) = true := by
  simp [cleanupParts, List.all_eq_true]

theorem download_cancelled_eq (m : Metadata) (sz req : Nat)
    (server : Int → Int → ServerReply) (s : DState)
    (hm : m.size = some sz) (hs : s.isCancelled = true) :
    (download (some m) req server s).outcome = Outcome.retFalse ∧
    (download (some m) req server s).state.downloadedBytes =
      ((splitter sz (effectiveThreads sz m.supportsResume req)).map
        (fun r => threadedDownload (server r.1 r.2) true r.1 r.2)).map
          (fun t => t.counted) ∧
    (download (some m) req server s).parts =
      cleanupParts
        (((splitter sz (effectiveThreads sz m.supportsResume req)).map
          (fun r => threadedDownload (server r.1 r.2) true r.1 r.2)).map
            (fun t => t.part)) := by
  obtain ⟨ms, mf, mr⟩ := m
  simp only [Metadata.size] at hm
  subst hm
  refine ⟨?_, ?_, ?_⟩ <;> simp [download, hs]

/-- C10 amended: no operation ever clears `is_cancelled` once set — `pause`,
`resume`, `cancel` and `download` all leave it `true`; a subsequent
`download()` on the cancelled object can never return `True`; and whenever
the resolver yields metadata with a parseable size (the only way fetchers
are spawned at all), it returns `False`, the fetchers stop at their first
cancellation check having counted zero bytes, and every part file is
cleaned up.  When instead the resolver fails or the size is `None`, the
call raises `NameError` rather than returning failure. -/
theorem cancel_terminal (s : DState) (conn : Option Metadata) (req : Nat)
    (server : Int → Int → ServerReply) (hs : s.isCancelled = true) :
    (pause s).isCancelled = true ∧
    (resume s).isCancelled = true ∧
    (cancel s).isCancelled = true ∧
    ((download conn req server s).state).isCancelled = true ∧
    (download conn req server s).outcome ≠ Outcome.retTrue ∧
    (∀ m sz, conn = some m → m.size = some sz →
      (download conn req server s).outcome = Outcome.retFalse ∧
      getProgress (download conn req server s).state.downloadedBytes = 0 ∧
      (download conn req server s).parts.all (fun p => p = none) = true) := by
  refine ⟨by simp [pause, hs], by simp [resume, hs], by simp [cancel], ?_, ?_, ?_⟩
  · cases conn with
    | none => simpa [download] using hs
    | some m =>
      cases hm : m.size with
      | none => simp [download, hm, hs]
      | some sz => simp [download, hm, hs]
  · cases conn with
    | none => simp [download]
    | some m =>
      cases hm : m.size with
      | none => simp [download, hm]
      | some sz => simp [download, hm, hs]
  · intro m sz hconn hm
    subst hconn
    obtain ⟨he1, he2, he3⟩ := download_cancelled_eq m sz req server s hm hs
    refine ⟨he1, ?_, he3 ▸ cleanupParts_all_none _⟩
    rw [he2]
    simp only [getProgress, List.map_map]
    refine List.sum_eq_zero ?_
    intro x hx
    rw [List.mem_map] at hx
    obtain ⟨r, _, hr⟩ := hx
    rw [← hr]
    exact counted_of_cancelled _ _ _

theorem cancel_terminal_witness :
    (download (some { size := some 4, filename := [], supportsResume := true })
      2 okServer (cancel initState)).outcome = Outcome.retFalse :=
  ((cancel_terminal (cancel initState)
    (some { size := some 4, filename := [], supportsResume := true })
    2 okServer rfl).2.2.2.2.2
    { size := some 4, filename := [], supportsResume := true } 4 rfl rfl).1

/-- C7: filename resolution priority — (a) the RFC 5987 `filename*=`
disposition value wins, percent-decoded with the charset/language prefix
discarded; else (b) the plain quoted/unquoted `filename=` value; else (c)
the percent-decoded last URL path segment with the query stripped, an empty
or `/`-terminated segment giving the literal default name — together with
the four specified examples. -/
theorem filename_resolution_priority :
    (∀ d f, searchFilenameStar d = some f →
      parseContentDisposition d = some f) ∧
    (∀ d, d ≠ [] → searchFilenameStar d = none →
      parseContentDisposition d = searchPlainFilename d) ∧
    (∀ url, resolveFilename none url = urlParserFn url) ∧
    parseContentDisposition
      ("attachment; filename=".toList ++ [dquo] ++ "plain.txt".toList ++ [dquo])
      = some "plain.txt".toList ∧
    parseContentDisposition
      ("attachment; filename*=UTF-8".toList ++ [apos, apos] ++ "caf%C3%A9.txt".toList)
      = some "café.txt".toList ∧
    resolveFilename none "https://host/path/file.zip?x=1".toList
      = "file.zip".toList ∧
    resolveFilename none "https://host/path/".toList
      = "download_file".toList := by
  refine ⟨?_, ?_, ?_, by decide, by decide, by decide, by decide⟩
  · intro d f h
    have hd : d ≠ [] := by
      rintro rfl
      simp [searchFilenameStar] at h
    simp [parseContentDisposition, hd, h]
  · intro d hd h
    simp [parseContentDisposition, hd, h]
  · intro url
    rfl

theorem filename_resolution_priority_witness :
    parseContentDisposition
      ("filename*=a".toList ++ [apos, apos] ++ "x.txt".toList)
      = some "x.txt".toList :=
  filename_resolution_priority.1 _ _ (by decide)

/-- C8: `connect()` returns `None` — and, being total on every probe
outcome, never raises past its boundary — whenever the probe yields a
non-2xx status, a timeout, or a transport error (or any other exception);
it returns a metadata record only when the probe succeeded with status
200. -/
theorem connect_error_contract (url : List Char) (probe : ProbeResult)
    (fb : GetFallback) :
    (∀ status hdrs, probe = ProbeResult.reply status hdrs →
      ¬(200 ≤ status ∧ status < 300) → connect url probe fb = none) ∧
    (probe = ProbeResult.timeout → connect url probe fb = none) ∧
    (probe = ProbeResult.requestError → connect url probe fb = none) ∧
    (probe = ProbeResult.otherError → connect url probe fb = none) ∧
    (∀ m, connect url probe fb = some m →
      ∃ hdrs, probe = ProbeResult.reply 200 hdrs) := by
  refine ⟨?_, ?_, ?_, ?_, ?_⟩
  · rintro status hdrs rfl hbad
    have hne : status ≠ 200 := by omega
    simp [connect, statusCheck, hne]
  · rintro rfl; rfl
  · rintro rfl; rfl
  · rintro rfl; rfl
  · intro m hm
    cases probe with
    | reply status hdrs =>
      by_cases h : status = 200
      · exact ⟨hdrs, by rw [h]⟩
      · simp [connect, statusCheck, h] at hm
    | timeout => simp [connect] at hm
    | requestError => simp [connect] at hm
    | otherError => simp [connect] at hm

theorem connect_error_contract_witness :
    connect [] (ProbeResult.reply 404
      { contentType := none, contentLength := none,
        contentDisposition := none, acceptRanges := none })
      GetFallback.err = none :=
  (connect_error_contract [] _ _).1 404 _ rfl (by omega)

end Fetchy
